import Mathlib

/-!
Shallow embedding of the endpoint component of the icinga2 remoting layer
(src/lib/remoting/endpoint.cpp).  An endpoint is a reflective object: a map
from attribute names to dynamically typed values, where storing an attribute
synchronously invokes the per-type change hook Endpoint.OnAttributeChanged
with the attribute name and the old value.  Side effects of the operations
(signals, log writes, queue posts, client sends, router calls) are made
explicit as an emitted list of events.
-/

/-- State of a network stream, as consumed through IsConnected. -/
structure StreamState where
  connected : Bool
deriving DecidableEq, Repr

def StreamState.IsConnected (s : StreamState) : Bool := s.connected

/-- A JSON-RPC connection handle, exposing its underlying stream. -/
structure JsonRpcConnection where
  stream : StreamState
deriving DecidableEq, Repr

def JsonRpcConnection.GetStream (c : JsonRpcConnection) : StreamState := c.stream

/-- A dynamically typed attribute value.  A subscriptions dictionary maps each
topic to itself, so it is represented by its list of keys. -/
inductive Value where
  | empty : Value
  | bool : Bool → Value
  | dictionary : List String → Value
  | client : JsonRpcConnection → Value
deriving DecidableEq, Repr

def Value.IsEmpty : Value → Bool
  | .empty => true
  | _ => false

/-- Truthiness of a value, as used by the C++ conversion to bool. -/
def Value.truthy : Value → Bool
  | .empty => false
  | .bool b => b
  | .dictionary _ => true
  | .client _ => true

/-- The Dictionary::Ptr obtained from a value: null unless the value holds a
dictionary. -/
def Value.asDictionary : Value → Option (List String)
  | .dictionary d => some d
  | _ => none

/-- The JsonRpcConnection::Ptr obtained from a value: null unless the value
holds a connection. -/
def Value.asClient : Value → Option JsonRpcConnection
  | .client c => some c
  | _ => none

/-- A raw JSON-RPC message: an optional method field, an optional id field,
and whether a result or error member is present. -/
structure MessagePart where
  method : Option String
  id : Option String
  hasResultOrError : Bool
deriving DecidableEq, Repr

/-- RequestMessage is a shape layered over a raw message; GetMethod and GetID
report presence of the corresponding fields. -/
abbrev RequestMessage := MessagePart

abbrev ResponseMessage := MessagePart

def RequestMessage.GetMethod (r : RequestMessage) : Option String := r.method

def RequestMessage.GetID (r : RequestMessage) : Option String := r.id

inductive LogSeverity where
  | debug : LogSeverity
  | information : LogSeverity
  | warning : LogSeverity
deriving DecidableEq, Repr

/-- Observable side effects of endpoint operations: the four Endpoint signals,
log writes, posting a local dispatch to the application event queue, sending a
message over the bound client connection, and the three EndpointManager entry
points. -/
inductive Event where
  | connected : String → Event
  | disconnected : String → Event
  | subscriptionRegistered : String → String → Event
  | subscriptionUnregistered : String → String → Event
  | logWrite : LogSeverity → String → String → Event
  | eqPost : String → String → String → RequestMessage → Event
  | clientSendRequest : RequestMessage → Event
  | clientSendResponse : ResponseMessage → Event
  | processResponseMessage : String → Event
  | sendAnycastMessage : String → RequestMessage → Event
  | sendMulticastMessage : String → RequestMessage → Event
deriving DecidableEq, Repr

/-- An Endpoint object: its registry name, its attribute map, and the
m_TopicHandlers member mapping a topic to the callbacks connected to its
signal (callbacks are identified by opaque numbers). -/
structure Endpoint where
  objName : String
  attrs : List (String × Value)
  m_TopicHandlers : List (String × List Nat)
deriving DecidableEq, Repr

/-- Attribute lookup; a missing attribute reads as the empty value. -/
def getAttr : List (String × Value) → String → Value
  | [], _ => .empty
  | (k, v) :: rest, n => if k = n then v else getAttr rest n

/-- Attribute store: replace the binding if present, append it otherwise. -/
def putAttr : List (String × Value) → String → Value → List (String × Value)
  | [], n, v => [(n, v)]
  | (k, w) :: rest, n, v =>
    if k = n then (k, v) :: rest else (k, w) :: putAttr rest n v

/-- Dictionary::Contains. -/
def dictContains : List String → String → Bool
  | [], _ => false
  | x :: xs, t => if x = t then true else dictContains xs t

/-- Lexicographic comparison of character lists by code point, used to keep
the dictionary ordered like the C++ ordered map. -/
def charListLt : List Char → List Char → Bool
  | [], [] => false
  | [], _ :: _ => true
  | _ :: _, [] => false
  | a :: as, b :: bs =>
    if Nat.blt a.val.toNat b.val.toNat then true
    else if Nat.blt b.val.toNat a.val.toNat then false
    else charListLt as bs

/-- Lexicographic string comparison by code point. -/
def strLt (a b : String) : Bool := charListLt a.data b.data

/-- Dictionary::Set of a key mapped to itself: ordered insertion, mirroring
the ordered map underlying the C++ dictionary. -/
def dictSet : List String → String → List String
  | [], k => [k]
  | x :: xs, k =>
    if strLt k x then k :: x :: xs
    else if k = x then x :: xs
    else x :: dictSet xs k

/-- Dictionary::Remove of a key. -/
def dictRemove (d : List String) (k : String) : List String :=
  d.filter (fun x => ¬(x = k))

/-- Contains on a possibly null dictionary pointer: null contains nothing. -/
def dictContainsOpt : Option (List String) → String → Bool
  | none, _ => false
  | some d, t => dictContains d t

def Endpoint.GetName (e : Endpoint) : String := e.objName

def Endpoint.Get (e : Endpoint) (name : String) : Value := getAttr e.attrs name

/-- Endpoint::GetSubscriptions: the subscriptions attribute viewed as a
dictionary pointer (null when unset or not a dictionary). -/
def Endpoint.GetSubscriptions (e : Endpoint) : Option (List String) :=
  (e.Get "subscriptions").asDictionary

/-- The unregistration half of the subscription diff in OnAttributeChanged:
for each topic of the old set that the new set does not contain, write a log
line and raise OnSubscriptionUnregistered. -/
def removedEvents (n : String) (newSubscriptions : Option (List String)) :
    List String → List Event
  | [] => []
  | subscription :: rest =>
    (if dictContainsOpt newSubscriptions subscription then []
     else [Event.logWrite .information "remoting"
             ("Removed subscription for " ++ n ++ ": " ++ subscription),
           Event.subscriptionUnregistered n subscription])
      ++ removedEvents n newSubscriptions rest

/-- The registration half of the subscription diff in OnAttributeChanged:
for each topic of the new set that the old set does not contain, write a log
line and raise OnSubscriptionRegistered. -/
def addedEvents (n : String) (oldSubscriptions : Option (List String)) :
    List String → List Event
  | [] => []
  | subscription :: rest =>
    (if dictContainsOpt oldSubscriptions subscription then []
     else [Event.logWrite .debug "remoting"
             ("New subscription for " ++ n ++ ": " ++ subscription),
           Event.subscriptionRegistered n subscription])
      ++ addedEvents n oldSubscriptions rest

/-- The full subscription diff: removed topics first, then added topics, each
half skipped when the corresponding dictionary pointer is null. -/
def subscriptionDiffEvents (n : String)
    (oldSubscriptions newSubscriptions : Option (List String)) : List Event :=
  (match oldSubscriptions with
   | none => []
   | some old => removedEvents n newSubscriptions old)
  ++ (match newSubscriptions with
      | none => []
      | some newList => addedEvents n oldSubscriptions newList)

/-- Endpoint::OnAttributeChanged: the change hook diffs old and new
subscription sets when the subscriptions attribute changed; the receiver here
after the store, so the new set is read through GetSubscriptions. -/
def Endpoint.OnAttributeChanged (e : Endpoint) (name : String)
    (oldValue : Value) : List Event :=
  if name = "subscriptions" then
    subscriptionDiffEvents e.GetName oldValue.asDictionary e.GetSubscriptions
  else []

/-- DynamicObject::Set: read the old value, store the new value, then invoke
the change hook with (name, old value), returning the emitted events. -/
def Endpoint.Set (e : Endpoint) (name : String) (value : Value) :
    Endpoint × List Event :=
  let oldValue := getAttr e.attrs name
  let e2 : Endpoint := { e with attrs := putAttr e.attrs name value }
  (e2, e2.OnAttributeChanged name oldValue)

/-- Endpoint::IsLocalEndpoint: the local attribute is set and truthy. -/
def Endpoint.IsLocalEndpoint (e : Endpoint) : Bool :=
  let value := e.Get "local"
  ¬value.IsEmpty && value.truthy

def Endpoint.GetClient (e : Endpoint) : Option JsonRpcConnection :=
  (e.Get "client").asClient

/-- Endpoint::IsConnected: a local endpoint is always connected; a remote one
is connected iff a client is bound and its stream reports connected. -/
def Endpoint.IsConnected (e : Endpoint) : Bool :=
  if e.IsLocalEndpoint then true
  else
    match e.GetClient with
    | none => false
    | some client => client.GetStream.IsConnected

/-- Endpoint::SetClient: store the client attribute, wire the inbound-message
and closed notifications (no state effect here), and raise OnConnected. -/
def Endpoint.SetClient (e : Endpoint) (client : JsonRpcConnection) :
    Endpoint × List Event :=
  let r := e.Set "client" (.client client)
  (r.fst, r.snd ++ [Event.connected r.fst.GetName])

def Endpoint.SetSubscriptions (e : Endpoint) (subscriptions : List String) :
    Endpoint × List Event :=
  e.Set "subscriptions" (.dictionary subscriptions)

/-- Endpoint::RegisterSubscription: copy-on-write insertion, a no-op when the
topic is already present. -/
def Endpoint.RegisterSubscription (e : Endpoint) (topic : String) :
    Endpoint × List Event :=
  let subscriptions := e.GetSubscriptions.getD []
  if dictContains subscriptions topic then (e, [])
  else e.SetSubscriptions (dictSet subscriptions topic)

/-- Endpoint::UnregisterSubscription: copy-on-write removal, a no-op when the
dictionary is null or the topic absent. -/
def Endpoint.UnregisterSubscription (e : Endpoint) (topic : String) :
    Endpoint × List Event :=
  match e.GetSubscriptions with
  | none => (e, [])
  | some subscriptions =>
    if dictContains subscriptions topic then
      e.SetSubscriptions (dictRemove subscriptions topic)
    else (e, [])

/-- Endpoint::HasSubscription. -/
def Endpoint.HasSubscription (e : Endpoint) (topic : String) : Bool :=
  match e.GetSubscriptions with
  | none => false
  | some subscriptions => dictContains subscriptions topic

/-- Endpoint::ClearSubscriptions: store the empty value. -/
def Endpoint.ClearSubscriptions (e : Endpoint) : Endpoint × List Event :=
  e.Set "subscriptions" .empty

def putHandlers : List (String × List Nat) → String → List Nat →
    List (String × List Nat)
  | [], t, hs => [(t, hs)]
  | (k, old) :: rest, t, hs =>
    if k = t then (k, hs) :: rest else (k, old) :: putHandlers rest t hs

/-- Endpoint::RegisterTopicHandler: connect the callback to the per-topic
signal (creating it if needed) and register the subscription. -/
def Endpoint.RegisterTopicHandler (e : Endpoint) (topic : String)
    (callback : Nat) : Endpoint × List Event :=
  let handlers :=
    match e.m_TopicHandlers.find? (fun p => p.fst = topic) with
    | some p => p.snd
    | none => []
  let e2 : Endpoint :=
    { e with m_TopicHandlers :=
        putHandlers e.m_TopicHandlers topic (handlers ++ [callback]) }
  e2.RegisterSubscription topic

inductive EndpointException where
  | NotImplementedException : EndpointException
deriving DecidableEq, Repr

/-- Endpoint::UnregisterTopicHandler: unconditionally throws
NotImplementedException; the commented-out removal code never runs. -/
def Endpoint.UnregisterTopicHandler (e : Endpoint) (topic : String)
    (callback : Nat) : Except EndpointException (Endpoint × List Event) :=
  .error .NotImplementedException

/-- Endpoint::ProcessRequest: drop when not connected; when local, look up the
topic handlers for the method and post a dispatch to the event queue if any
exist (missing method or unknown method is a silent no-op); when remote, send
the request over the bound client. -/
def Endpoint.ProcessRequest (e : Endpoint) (sender : Endpoint)
    (request : RequestMessage) : Endpoint × List Event :=
  if ¬e.IsConnected then (e, [])
  else if e.IsLocalEndpoint then
    match request.GetMethod with
    | none => (e, [])
    | some method =>
      match e.m_TopicHandlers.find? (fun p => p.fst = method) with
      | none => (e, [])
      | some _ => (e, [Event.eqPost method e.GetName sender.GetName request])
  else (e, [Event.clientSendRequest request])

/-- Endpoint::ProcessResponse: drop when not connected; when local, hand the
response to the response correlation of the endpoint manager; when remote,
send it over the bound client. -/
def Endpoint.ProcessResponse (e : Endpoint) (sender : Endpoint)
    (response : ResponseMessage) : Endpoint × List Event :=
  if ¬e.IsConnected then (e, [])
  else if e.IsLocalEndpoint then
    (e, [Event.processResponseMessage sender.GetName])
  else (e, [Event.clientSendResponse response])

/-- Modelled from the spec: ResponseMessage::IsResponseMessage is not among
the provided sources; the spec defines a response-shaped message as one that
has a result or error member and no method. -/
def IsResponseMessage (message : MessagePart) : Bool :=
  message.hasResultOrError && message.method.isNone

/-- Endpoint::NewMessageHandler: a response-shaped message goes straight to
response correlation; otherwise the message is read as a request, dropped if
its method is missing, and routed anycast when an id is present, multicast
otherwise. -/
def Endpoint.NewMessageHandler (e : Endpoint) (message : MessagePart) :
    List Event :=
  if IsResponseMessage message then
    [Event.processResponseMessage e.GetName]
  else
    let request : RequestMessage := message
    match request.GetMethod with
    | none => []
    | some _ =>
      match request.GetID with
      | some _ => [Event.sendAnycastMessage e.GetName request]
      | none => [Event.sendMulticastMessage e.GetName request]

/-- Endpoint::ClientClosedHandler: log the lost connection, clear all
subscriptions, clear the client attribute, raise OnDisconnected. -/
def Endpoint.ClientClosedHandler (e : Endpoint) : Endpoint × List Event :=
  let logEvent := Event.logWrite .warning "jsonrpc"
    ("Lost connection to endpoint: identity=" ++ e.GetName)
  let r2 := e.ClearSubscriptions
  let r3 := r2.fst.Set "client" .empty
  (r3.fst, logEvent :: (r2.snd ++ r3.snd ++ [Event.disconnected r3.fst.GetName]))

/-- The current subscription set of an endpoint, read as a list of topics
(empty when the attribute is unset or not a dictionary). -/
def subsList (e : Endpoint) : List String := e.GetSubscriptions.getD []

/-- Well-formedness maintained by the subscription operations: the stored
dictionary has no duplicate keys. -/
abbrev SubsWellFormed (e : Endpoint) : Prop := (subsList e).Nodup

/-- The three mutations of the subscription set. -/
inductive SubscriptionMutation where
  | register : String → SubscriptionMutation
  | unregister : String → SubscriptionMutation
  | clear : SubscriptionMutation

def applySubscriptionMutation (e : Endpoint) :
    SubscriptionMutation → Endpoint × List Event
  | .register t => e.RegisterSubscription t
  | .unregister t => e.UnregisterSubscription t
  | .clear => e.ClearSubscriptions

/-- Number of occurrences of an event in an emitted event list. -/
def countEvent : List Event → Event → Nat
  | [], _ => 0
  | ev :: rest, target => (if ev = target then 1 else 0) + countEvent rest target

/-- Restrict an event list to the subscription Registered/Unregistered
signals. -/
def subscriptionEventsOnly (evs : List Event) : List Event :=
  evs.filter (fun ev =>
    match ev with
    | .subscriptionRegistered _ _ => true
    | .subscriptionUnregistered _ _ => true
    | _ => false)

/-- A connection whose stream reports connected. -/
def clientW : JsonRpcConnection := { stream := { connected := true } }

/-- A concrete local endpoint. -/
def localEndpointW : Endpoint :=
  { objName := "local1", attrs := [("local", .bool true)], m_TopicHandlers := [] }

/-- A concrete remote endpoint with a bound, connected client. -/
def remoteConnectedW : Endpoint :=
  { objName := "remote1", attrs := [("client", .client clientW)],
    m_TopicHandlers := [] }

/-- A concrete remote endpoint with no client bound. -/
def remoteDisconnectedW : Endpoint :=
  { objName := "remote2", attrs := [], m_TopicHandlers := [] }

/-- A concrete endpoint subscribed to topics A and B. -/
def endpointAB : Endpoint :=
  { objName := "ep", attrs := [("subscriptions", .dictionary ["A", "B"])],
    m_TopicHandlers := [] }

/-- A request with a method and an id (anycast shape). -/
def requestWithIdW : RequestMessage :=
  { method := some "alpha", id := some "req-42", hasResultOrError := false }

/-- A request with a method and no id (multicast shape). -/
def requestNoIdW : RequestMessage :=
  { method := some "alpha", id := none, hasResultOrError := false }

/-- A raw message with an id but no method and no result or error member. -/
def noMethodWithIdW : MessagePart :=
  { method := none, id := some "req-1", hasResultOrError := false }

/-- A raw message with no method, no id, no result or error member. -/
def noMethodRequestW : RequestMessage :=
  { method := none, id := none, hasResultOrError := false }

/-- A response-shaped message. -/
def responseW : ResponseMessage :=
  { method := none, id := some "req-42", hasResultOrError := true }

/-! Helper lemmas about the attribute map and dictionaries. -/

theorem getAttr_putAttr_same (a : List (String × Value)) (n : String) (v : Value) :
    getAttr (putAttr a n v) n = v := by
  induction a with
  | nil => simp [putAttr, getAttr]
  | cons p rest ih =>
    obtain ⟨k, w⟩ := p
    by_cases h : k = n
    · simp [putAttr, getAttr, h]
    · simp [putAttr, getAttr, h, ih]

theorem getAttr_putAttr_ne (a : List (String × Value)) (n m : String) (v : Value)
    (h : n ≠ m) : getAttr (putAttr a n v) m = getAttr a m := by
  induction a with
  | nil => simp [putAttr, getAttr, h]
  | cons p rest ih =>
    obtain ⟨k, w⟩ := p
    by_cases hk : k = n
    · subst hk; simp [putAttr, getAttr, h]
    · by_cases hm : k = m
      · subst hm
        simp [putAttr, getAttr, hk]
      · simp [putAttr, getAttr, hk, hm, ih]

theorem dictContains_iff (d : List String) (t : String) :
    dictContains d t = true ↔ t ∈ d := by
  induction d with
  | nil => simp [dictContains]
  | cons x xs ih =>
    by_cases h : x = t
    · subst h; simp [dictContains]
    · simp only [dictContains, if_neg h, ih, List.mem_cons]
      constructor
      · exact Or.inr
      · rintro (heq | hmem)
        · exact absurd heq.symm h
        · exact hmem

theorem mem_dictSet (d : List String) (k x : String) :
    x ∈ dictSet d k ↔ x = k ∨ x ∈ d := by
  induction d with
  | nil => simp [dictSet]
  | cons y ys ih =>
    by_cases h1 : strLt k y = true
    · simp [dictSet, h1]
    · by_cases h2 : k = y
      · subst h2
        simp only [dictSet, if_neg h1, if_true, List.mem_cons]
        tauto
      · simp only [dictSet, if_neg h1, if_neg h2, List.mem_cons, ih]
        tauto

theorem nodup_dictSet (d : List String) (k : String) (hk : k ∉ d)
    (hd : d.Nodup) : (dictSet d k).Nodup := by
  induction d with
  | nil => simp [dictSet]
  | cons y ys ih =>
    rw [List.nodup_cons] at hd
    obtain ⟨hy, hys⟩ := hd
    have hknotys : k ∉ ys := fun hmem => hk (List.mem_cons_of_mem _ hmem)
    have hkny : k ≠ y := fun heq => hk (heq ▸ List.mem_cons_self _ _)
    by_cases h1 : strLt k y = true
    · simp only [dictSet, if_pos h1]
      refine List.nodup_cons.mpr ⟨?_, List.nodup_cons.mpr ⟨hy, hys⟩⟩
      simp [List.mem_cons, hkny, hknotys]
    · by_cases h2 : k = y
      · exact (hkny h2).elim
      · simp only [dictSet, if_neg h1, if_neg h2]
        refine List.nodup_cons.mpr ⟨?_, ih hknotys hys⟩
        rw [mem_dictSet]
        rintro (h | h)
        · exact hkny h.symm
        · exact hy h

theorem mem_dictRemove (d : List String) (k x : String) :
    x ∈ dictRemove d k ↔ x ∈ d ∧ ¬(x = k) := by
  simp [dictRemove, List.mem_filter]

theorem nodup_dictRemove (d : List String) (k : String) (hd : d.Nodup) :
    (dictRemove d k).Nodup :=
  List.Nodup.filter _ hd

theorem dictContainsOpt_true_iff (o : Option (List String)) (u : String) :
    dictContainsOpt o u = true ↔ u ∈ o.getD [] := by
  cases o with
  | none => simp [dictContainsOpt]
  | some d => simp [dictContainsOpt, dictContains_iff]

theorem dictContainsOpt_false_iff (o : Option (List String)) (u : String) :
    dictContainsOpt o u = false ↔ u ∉ o.getD [] := by
  rw [← dictContainsOpt_true_iff]
  cases h : dictContainsOpt o u <;> simp

theorem countEvent_append (l1 l2 : List Event) (t : Event) :
    countEvent (l1 ++ l2) t = countEvent l1 t + countEvent l2 t := by
  induction l1 with
  | nil => simp [countEvent]
  | cons ev rest ih => simp [countEvent, ih, Nat.add_assoc]

/-! Counting subscription events in the diff hook output. -/

theorem countEvent_removedEvents_unreg (n : String)
    (newOpt : Option (List String)) (u : String) :
    ∀ old : List String, old.Nodup →
      countEvent (removedEvents n newOpt old)
          (Event.subscriptionUnregistered n u)
        = if u ∈ old ∧ dictContainsOpt newOpt u = false then 1 else 0 := by
  intro old
  induction old with
  | nil => intro _; simp [removedEvents, countEvent]
  | cons s rest ih =>
    intro hnd
    rw [List.nodup_cons] at hnd
    obtain ⟨hs, hrest⟩ := hnd
    rw [removedEvents, countEvent_append, ih hrest]
    by_cases hsu : s = u
    · subst hsu
      have hnotrest : ¬(s ∈ rest ∧ dictContainsOpt newOpt s = false) :=
        fun hand => hs hand.1
    -- second summand vanishes because s does not recur in rest
      rw [if_neg hnotrest]
      by_cases hc : dictContainsOpt newOpt s = true
      · rw [if_pos hc]
        simp [countEvent, hc]
      · rw [if_neg hc]
        have hc2 : dictContainsOpt newOpt s = false := by
          cases h : dictContainsOpt newOpt s
          · rfl
          · exact absurd h hc
        simp [countEvent, hc2, List.mem_cons]
    · have hchunk :
          countEvent
            (if dictContainsOpt newOpt s = true then []
             else [Event.logWrite .information "remoting"
                     ("Removed subscription for " ++ n ++ ": " ++ s),
                   Event.subscriptionUnregistered n s])
            (Event.subscriptionUnregistered n u) = 0 := by
        by_cases hc : dictContainsOpt newOpt s = true
        · rw [if_pos hc]; rfl
        · rw [if_neg hc]
          simp [countEvent, hsu]
      rw [hchunk]
      have hmem : u ∈ s :: rest ↔ u ∈ rest := by
        simp [List.mem_cons, Ne.symm hsu]
      simp [hmem]

theorem countEvent_removedEvents_reg (n n2 : String)
    (newOpt : Option (List String)) (u : String) :
    ∀ old : List String,
      countEvent (removedEvents n newOpt old)
          (Event.subscriptionRegistered n2 u) = 0 := by
  intro old
  induction old with
  | nil => simp [removedEvents, countEvent]
  | cons s rest ih =>
    rw [removedEvents, countEvent_append, ih]
    by_cases hc : dictContainsOpt newOpt s = true
    · rw [if_pos hc]; rfl
    · rw [if_neg hc]; simp [countEvent]

theorem countEvent_addedEvents_reg (n : String)
    (oldOpt : Option (List String)) (u : String) :
    ∀ newList : List String, newList.Nodup →
      countEvent (addedEvents n oldOpt newList)
          (Event.subscriptionRegistered n u)
        = if u ∈ newList ∧ dictContainsOpt oldOpt u = false then 1 else 0 := by
  intro newList
  induction newList with
  | nil => intro _; simp [addedEvents, countEvent]
  | cons s rest ih =>
    intro hnd
    rw [List.nodup_cons] at hnd
    obtain ⟨hs, hrest⟩ := hnd
    rw [addedEvents, countEvent_append, ih hrest]
    by_cases hsu : s = u
    · subst hsu
      have hnotrest : ¬(s ∈ rest ∧ dictContainsOpt oldOpt s = false) :=
        fun hand => hs hand.1
      rw [if_neg hnotrest]
      by_cases hc : dictContainsOpt oldOpt s = true
      · rw [if_pos hc]
        simp [countEvent, hc]
      · rw [if_neg hc]
        have hc2 : dictContainsOpt oldOpt s = false := by
          cases h : dictContainsOpt oldOpt s
          · rfl
          · exact absurd h hc
        simp [countEvent, hc2, List.mem_cons]
    · have hchunk :
          countEvent
            (if dictContainsOpt oldOpt s = true then []
             else [Event.logWrite .debug "remoting"
                     ("New subscription for " ++ n ++ ": " ++ s),
                   Event.subscriptionRegistered n s])
            (Event.subscriptionRegistered n u) = 0 := by
        by_cases hc : dictContainsOpt oldOpt s = true
        · rw [if_pos hc]; rfl
        · rw [if_neg hc]
          simp [countEvent, hsu]
      rw [hchunk]
      have hmem : u ∈ s :: rest ↔ u ∈ rest := by
        simp [List.mem_cons, Ne.symm hsu]
      simp [hmem]

theorem countEvent_addedEvents_unreg (n n2 : String)
    (oldOpt : Option (List String)) (u : String) :
    ∀ newList : List String,
      countEvent (addedEvents n oldOpt newList)
          (Event.subscriptionUnregistered n2 u) = 0 := by
  intro newList
  induction newList with
  | nil => simp [addedEvents, countEvent]
  | cons s rest ih =>
    rw [addedEvents, countEvent_append, ih]
    by_cases hc : dictContainsOpt oldOpt s = true
    · rw [if_pos hc]; rfl
    · rw [if_neg hc]; simp [countEvent]

theorem countEvent_subscriptionDiff_unreg (n : String)
    (oldOpt newOpt : Option (List String)) (u : String)
    (hnd : (oldOpt.getD []).Nodup) :
    countEvent (subscriptionDiffEvents n oldOpt newOpt)
        (Event.subscriptionUnregistered n u)
      = if u ∈ oldOpt.getD [] ∧ u ∉ newOpt.getD [] then 1 else 0 := by
  unfold subscriptionDiffEvents
  rw [countEvent_append]
  have h2 : countEvent
      (match newOpt with
       | none => []
       | some newList => addedEvents n oldOpt newList)
      (Event.subscriptionUnregistered n u) = 0 := by
    cases newOpt with
    | none => rfl
    | some newList => exact countEvent_addedEvents_unreg n n oldOpt u newList
  rw [h2, Nat.add_zero]
  cases oldOpt with
  | none => simp [countEvent]
  | some old =>
    rw [countEvent_removedEvents_unreg n newOpt u old hnd]
    have hcond : (u ∈ old ∧ dictContainsOpt newOpt u = false)
        ↔ (u ∈ (some old : Option (List String)).getD [] ∧ u ∉ newOpt.getD []) := by
      rw [dictContainsOpt_false_iff]
      simp
    rw [if_congr hcond rfl rfl]

theorem countEvent_subscriptionDiff_reg (n : String)
    (oldOpt newOpt : Option (List String)) (u : String)
    (hnd : (newOpt.getD []).Nodup) :
    countEvent (subscriptionDiffEvents n oldOpt newOpt)
        (Event.subscriptionRegistered n u)
      = if u ∈ newOpt.getD [] ∧ u ∉ oldOpt.getD [] then 1 else 0 := by
  unfold subscriptionDiffEvents
  rw [countEvent_append]
  have h1 : countEvent
      (match oldOpt with
       | none => []
       | some old => removedEvents n newOpt old)
      (Event.subscriptionRegistered n u) = 0 := by
    cases oldOpt with
    | none => rfl
    | some old => exact countEvent_removedEvents_reg n n newOpt u old
  rw [h1, Nat.zero_add]
  cases newOpt with
  | none => simp [countEvent]
  | some newList =>
    rw [countEvent_addedEvents_reg n oldOpt u newList hnd]
    have hcond : (u ∈ newList ∧ dictContainsOpt oldOpt u = false)
        ↔ (u ∈ (some newList : Option (List String)).getD [] ∧ u ∉ oldOpt.getD []) := by
      rw [dictContainsOpt_false_iff]
      simp
    rw [if_congr hcond rfl rfl]

/-! Stepping lemmas for the attribute store. -/

theorem Get_Set_same (e : Endpoint) (n : String) (v : Value) :
    (e.Set n v).fst.Get n = v :=
  getAttr_putAttr_same e.attrs n v

theorem Get_Set_ne (e : Endpoint) (n m : String) (v : Value) (h : n ≠ m) :
    (e.Set n v).fst.Get m = e.Get m :=
  getAttr_putAttr_ne e.attrs n m v h

theorem objName_Set (e : Endpoint) (n : String) (v : Value) :
    (e.Set n v).fst.objName = e.objName := rfl

theorem IsLocalEndpoint_Set (e : Endpoint) (n : String) (v : Value)
    (h : n ≠ "local") :
    (e.Set n v).fst.IsLocalEndpoint = e.IsLocalEndpoint := by
  unfold Endpoint.IsLocalEndpoint
  rw [Get_Set_ne e n "local" v h]

theorem subsList_eq (e : Endpoint) :
    subsList e = ((e.Get "subscriptions").asDictionary).getD [] := rfl

theorem SetSubscriptions_eq (e : Endpoint) (d : List String) :
    e.SetSubscriptions d
      = ({ e with attrs := putAttr e.attrs "subscriptions" (.dictionary d) },
         subscriptionDiffEvents e.objName (e.Get "subscriptions").asDictionary
           (some d)) := by
  simp [Endpoint.SetSubscriptions, Endpoint.Set, Endpoint.OnAttributeChanged,
    Endpoint.GetSubscriptions, Endpoint.Get, Endpoint.GetName,
    getAttr_putAttr_same, Value.asDictionary]

theorem ClearSubscriptions_eq (e : Endpoint) :
    e.ClearSubscriptions
      = ({ e with attrs := putAttr e.attrs "subscriptions" Value.empty },
         subscriptionDiffEvents e.objName (e.Get "subscriptions").asDictionary
           none) := by
  simp [Endpoint.ClearSubscriptions, Endpoint.Set, Endpoint.OnAttributeChanged,
    Endpoint.GetSubscriptions, Endpoint.Get, Endpoint.GetName,
    getAttr_putAttr_same, Value.asDictionary]

theorem subsList_SetSubscriptions (e : Endpoint) (d : List String) :
    subsList (e.SetSubscriptions d).fst = d := by
  rw [SetSubscriptions_eq]
  simp [subsList, Endpoint.GetSubscriptions, Endpoint.Get,
    getAttr_putAttr_same, Value.asDictionary]

theorem subsList_ClearSubscriptions (e : Endpoint) :
    subsList (e.ClearSubscriptions).fst = [] := by
  rw [ClearSubscriptions_eq]
  simp [subsList, Endpoint.GetSubscriptions, Endpoint.Get,
    getAttr_putAttr_same, Value.asDictionary]

/-- The per-mutation diff property behind claim C2: each of the three
subscription mutations emits the Unregistered signal once for each topic
leaving the set, the Registered signal once for each topic entering the set,
and neither signal for any other topic. -/
theorem subscription_mutation_diff_counts (e : Endpoint)
    (m : SubscriptionMutation) (u : String) (hwf : SubsWellFormed e) :
    countEvent (applySubscriptionMutation e m).snd
        (Event.subscriptionUnregistered e.GetName u)
      = (if u ∈ subsList e ∧ u ∉ subsList (applySubscriptionMutation e m).fst
         then 1 else 0) ∧
    countEvent (applySubscriptionMutation e m).snd
        (Event.subscriptionRegistered e.GetName u)
      = (if u ∈ subsList (applySubscriptionMutation e m).fst ∧ u ∉ subsList e
         then 1 else 0) := by
  have hwf2 : (((e.Get "subscriptions").asDictionary).getD []).Nodup := hwf
  cases m with
  | register t =>
    simp only [applySubscriptionMutation]
    have hstep : e.RegisterSubscription t =
        if dictContains (e.GetSubscriptions.getD []) t = true then (e, [])
        else e.SetSubscriptions (dictSet (e.GetSubscriptions.getD []) t) := rfl
    by_cases hc : dictContains (e.GetSubscriptions.getD []) t = true
    · have hstep2 : e.RegisterSubscription t = (e, []) := by
        rw [hstep, if_pos hc]
      simp only [hstep2]
      constructor <;> simp [countEvent, and_not_self_iff]
    · have hstep2 : e.RegisterSubscription t
          = e.SetSubscriptions (dictSet (e.GetSubscriptions.getD []) t) := by
        rw [hstep, if_neg hc]
      have htmem : t ∉ subsList e := by
        rw [← dictContains_iff]
        intro habs
        exact hc habs
      have hnodupNew : (dictSet (e.GetSubscriptions.getD []) t).Nodup :=
        nodup_dictSet _ t htmem hwf2
      simp only [hstep2, SetSubscriptions_eq, Endpoint.GetName]
      constructor
      · rw [countEvent_subscriptionDiff_unreg e.objName _ _ u hwf2]
        simp [subsList, Endpoint.GetSubscriptions, Endpoint.Get,
          getAttr_putAttr_same, Value.asDictionary]
      · rw [countEvent_subscriptionDiff_reg e.objName _ _ u
          (by simpa using hnodupNew)]
        simp [subsList, Endpoint.GetSubscriptions, Endpoint.Get,
          getAttr_putAttr_same, Value.asDictionary]
  | unregister t =>
    simp only [applySubscriptionMutation]
    cases hs : e.GetSubscriptions with
    | none =>
      have hstep : e.UnregisterSubscription t = (e, []) := by
        unfold Endpoint.UnregisterSubscription
        rw [hs]
      simp only [hstep]
      constructor <;> simp [countEvent, and_not_self_iff]
    | some subscriptions =>
      have hsubs : subsList e = subscriptions := by
        simp [subsList, hs]
      by_cases hc : dictContains subscriptions t = true
      · have hstep : e.UnregisterSubscription t
            = e.SetSubscriptions (dictRemove subscriptions t) := by
          unfold Endpoint.UnregisterSubscription
          rw [hs]
          simp [hc]
        have holdeq : (e.Get "subscriptions").asDictionary = some subscriptions := hs
        have hnodupNew : (dictRemove subscriptions t).Nodup :=
          nodup_dictRemove subscriptions t
            (by have hn : (subsList e).Nodup := hwf; rw [hsubs] at hn; exact hn)
        simp only [hstep, SetSubscriptions_eq, Endpoint.GetName]
        constructor
        · rw [countEvent_subscriptionDiff_unreg e.objName _ _ u hwf2]
          simp [subsList, Endpoint.GetSubscriptions, Endpoint.Get,
            getAttr_putAttr_same, Value.asDictionary, holdeq, hsubs]
        · rw [countEvent_subscriptionDiff_reg e.objName _ _ u
            (by simpa using hnodupNew)]
          simp [subsList, Endpoint.GetSubscriptions, Endpoint.Get,
            getAttr_putAttr_same, Value.asDictionary, holdeq, hsubs]
      · have hstep : e.UnregisterSubscription t = (e, []) := by
          unfold Endpoint.UnregisterSubscription
          rw [hs]
          simp [hc]
        simp only [hstep]
        constructor <;> simp [countEvent, and_not_self_iff]
  | clear =>
    simp only [applySubscriptionMutation]
    simp only [ClearSubscriptions_eq, Endpoint.GetName]
    constructor
    · rw [countEvent_subscriptionDiff_unreg e.objName _ _ u hwf2]
      simp [subsList, Endpoint.GetSubscriptions, Endpoint.Get,
        getAttr_putAttr_same, Value.asDictionary]
    · rw [countEvent_subscriptionDiff_reg e.objName _ _ u (by simp)]
      simp [countEvent, subsList, Endpoint.GetSubscriptions, Endpoint.Get,
        getAttr_putAttr_same, Value.asDictionary]

/-! Step equations for the subscription operations. -/

theorem RegisterSubscription_eq (e : Endpoint) (t : String) :
    e.RegisterSubscription t =
      if dictContains (e.GetSubscriptions.getD []) t = true then (e, [])
      else e.SetSubscriptions (dictSet (e.GetSubscriptions.getD []) t) := rfl

theorem UnregisterSubscription_none (e : Endpoint) (t : String)
    (hs : e.GetSubscriptions = none) :
    e.UnregisterSubscription t = (e, []) := by
  unfold Endpoint.UnregisterSubscription
  rw [hs]

theorem UnregisterSubscription_some (e : Endpoint) (t : String)
    (subs : List String) (hs : e.GetSubscriptions = some subs) :
    e.UnregisterSubscription t =
      if dictContains subs t = true then e.SetSubscriptions (dictRemove subs t)
      else (e, []) := by
  unfold Endpoint.UnregisterSubscription
  rw [hs]

theorem GetSubscriptions_SetSubscriptions (e : Endpoint) (d : List String) :
    (e.SetSubscriptions d).fst.GetSubscriptions = some d := by
  unfold Endpoint.GetSubscriptions Endpoint.SetSubscriptions
  rw [Get_Set_same]
  rfl

theorem HasSubscription_eq (e : Endpoint) (t : String) :
    e.HasSubscription t = dictContains (e.GetSubscriptions.getD []) t := by
  cases h : e.GetSubscriptions with
  | none => simp [Endpoint.HasSubscription, h, dictContains]
  | some subs => simp [Endpoint.HasSubscription, h]

theorem dictContains_eq_false (d : List String) (t : String) (h : t ∉ d) :
    dictContains d t = false := by
  cases hx : dictContains d t
  · rfl
  · exact absurd ((dictContains_iff d t).mp hx) h

/-! The claims. -/

/-- Claim C1: IsConnected returns true unconditionally for a local endpoint,
regardless of whether a client is bound; for a remote endpoint it returns
true if and only if a client is bound whose stream reports connected. -/
theorem C1_IsConnected_local_remote (e : Endpoint) :
    (e.IsLocalEndpoint = true → e.IsConnected = true) ∧
    (e.IsLocalEndpoint = false →
      (e.IsConnected = true ↔
        ∃ c, e.GetClient = some c ∧ c.GetStream.IsConnected = true)) := by
  constructor
  · intro h
    simp [Endpoint.IsConnected, h]
  · intro h
    simp only [Endpoint.IsConnected, h, Bool.false_eq_true, if_false]
    cases hcl : e.GetClient with
    | none => simp
    | some c => simp

/-- Witness for C1 at a concrete local endpoint and a concrete remote
endpoint with a connected client. -/
theorem C1_IsConnected_local_remote_witness :
    localEndpointW.IsConnected = true ∧ remoteConnectedW.IsConnected = true :=
  ⟨(C1_IsConnected_local_remote localEndpointW).1 (by decide),
   ((C1_IsConnected_local_remote remoteConnectedW).2 (by decide)).mpr
     ⟨clientW, by decide, by decide⟩⟩

/-- Claim C2: every subscription-set mutation emits, via the change hook,
exactly one Unregistered signal per topic leaving the set, exactly one
Registered signal per topic entering the set, and no signal for topics in
both; moving the set from A,B to B,C emits exactly Unregistered(A) and
Registered(C), and registering an already-present topic emits nothing. -/
theorem C2_subscription_diff_exact :
    (∀ (e : Endpoint) (m : SubscriptionMutation) (u : String),
      SubsWellFormed e →
      countEvent (applySubscriptionMutation e m).snd
          (Event.subscriptionUnregistered e.GetName u)
        = (if u ∈ subsList e ∧ u ∉ subsList (applySubscriptionMutation e m).fst
           then 1 else 0) ∧
      countEvent (applySubscriptionMutation e m).snd
          (Event.subscriptionRegistered e.GetName u)
        = (if u ∈ subsList (applySubscriptionMutation e m).fst ∧ u ∉ subsList e
           then 1 else 0)) ∧
    subscriptionEventsOnly
        ((endpointAB.UnregisterSubscription "A").snd
          ++ ((endpointAB.UnregisterSubscription "A").fst.RegisterSubscription
                "C").snd)
      = [Event.subscriptionUnregistered "ep" "A",
         Event.subscriptionRegistered "ep" "C"] ∧
    (endpointAB.RegisterSubscription "B").snd = [] := by
  refine ⟨subscription_mutation_diff_counts, ?_, ?_⟩ <;> rfl

/-- Witness for C2: the diff property applied to registering topic C on the
endpoint subscribed to A and B. -/
theorem C2_subscription_diff_exact_witness :
    SubsWellFormed endpointAB ∧
    countEvent (applySubscriptionMutation endpointAB (.register "C")).snd
        (Event.subscriptionRegistered endpointAB.GetName "C")
      = (if "C" ∈ subsList (applySubscriptionMutation endpointAB
              (.register "C")).fst ∧ "C" ∉ subsList endpointAB
         then 1 else 0) :=
  ⟨by decide,
   (C2_subscription_diff_exact.1 endpointAB (.register "C") "C" (by decide)).2⟩

/-- Claim C7: a request processed by an endpoint that is not connected is
dropped: the state is unchanged, nothing is posted, sent or logged, and no
error is raised. -/
theorem C7_processRequest_drop (e sender : Endpoint)
    (request : RequestMessage) (h : e.IsConnected = false) :
    e.ProcessRequest sender request = (e, []) := by
  simp [Endpoint.ProcessRequest, h]

/-- Witness for C7 at a concrete disconnected remote endpoint. -/
theorem C7_processRequest_drop_witness :
    remoteDisconnectedW.ProcessRequest localEndpointW requestNoIdW
      = (remoteDisconnectedW, []) :=
  C7_processRequest_drop remoteDisconnectedW localEndpointW requestNoIdW
    (by decide)

/-- Claim C9: UnregisterTopicHandler always fails with
NotImplementedException and never returns a modified endpoint. -/
theorem C9_unregisterTopicHandler_notImplemented (e : Endpoint)
    (topic : String) (callback : Nat) :
    e.UnregisterTopicHandler topic callback
      = Except.error EndpointException.NotImplementedException := rfl

/-- Claim C10: a response processed by an endpoint that is not connected is
silently dropped exactly as a request is: the state is unchanged, response
correlation is not invoked, nothing is sent, and no error is raised. -/
theorem C10_processResponse_drop (e sender : Endpoint)
    (response : ResponseMessage) (h : e.IsConnected = false) :
    e.ProcessResponse sender response = (e, []) := by
  simp [Endpoint.ProcessResponse, h]

/-- Witness for C10 at a concrete disconnected remote endpoint. -/
theorem C10_processResponse_drop_witness :
    remoteDisconnectedW.ProcessResponse localEndpointW responseW
      = (remoteDisconnectedW, []) :=
  C10_processResponse_drop remoteDisconnectedW localEndpointW responseW
    (by decide)

/-- Claim C3 as frozen fails on the code: a message that is not shaped as a
response but carries an id and no parsable method is silently dropped by
NewMessageHandler rather than dispatched anycast, so anycast dispatch is not
equivalent to the presence of an id. -/
theorem C3_counterexample :
    IsResponseMessage noMethodWithIdW = false ∧
    noMethodWithIdW.id.isSome = true ∧
    remoteConnectedW.NewMessageHandler noMethodWithIdW = [] :=
  ⟨rfl, rfl, rfl⟩

/-- Claim C3 amended: a response-shaped message goes straight to response
correlation; otherwise, provided the method field is parsable, presence of
an id routes the request anycast and absence multicast; a request with no
parsable method is dropped. -/
theorem C3_inbound_classification (e : Endpoint) (message : MessagePart) :
    (IsResponseMessage message = true →
      e.NewMessageHandler message
        = [Event.processResponseMessage e.GetName]) ∧
    (IsResponseMessage message = false → message.method.isSome = true →
      ((message.id.isSome = true →
         e.NewMessageHandler message
           = [Event.sendAnycastMessage e.GetName message]) ∧
       (message.id.isSome = false →
         e.NewMessageHandler message
           = [Event.sendMulticastMessage e.GetName message]))) ∧
    (IsResponseMessage message = false → message.method = none →
      e.NewMessageHandler message = []) := by
  refine ⟨?_, ?_, ?_⟩
  · intro h
    simp [Endpoint.NewMessageHandler, h]
  · intro h hm
    rcases hmth : message.method with _ | mth
    · rw [hmth] at hm; simp at hm
    · constructor
      · intro hid
        rcases hid2 : message.id with _ | i
        · rw [hid2] at hid; simp at hid
        · simp [Endpoint.NewMessageHandler, h, RequestMessage.GetMethod,
            RequestMessage.GetID, hmth, hid2]
      · intro hid
        rcases hid2 : message.id with _ | i
        · simp [Endpoint.NewMessageHandler, h, RequestMessage.GetMethod,
            RequestMessage.GetID, hmth, hid2]
        · rw [hid2] at hid; simp at hid
  · intro h hm
    simp [Endpoint.NewMessageHandler, h, RequestMessage.GetMethod, hm]

/-- Witness for the amended C3 at concrete messages with and without an
id. -/
theorem C3_inbound_classification_witness :
    remoteConnectedW.NewMessageHandler requestWithIdW
      = [Event.sendAnycastMessage remoteConnectedW.GetName requestWithIdW] ∧
    remoteConnectedW.NewMessageHandler requestNoIdW
      = [Event.sendMulticastMessage remoteConnectedW.GetName requestNoIdW] :=
  ⟨((C3_inbound_classification remoteConnectedW requestWithIdW).2.1
      (by decide) (by decide)).1 (by decide),
   ((C3_inbound_classification remoteConnectedW requestNoIdW).2.1
      (by decide) (by decide)).2 (by decide)⟩

/-- Claim C4 as frozen fails on the code: SetClient has no guard for local
endpoints, so after SetClient on a local endpoint the client attribute is
bound rather than remaining unbound. -/
theorem C4_counterexample :
    localEndpointW.IsLocalEndpoint = true ∧
    (localEndpointW.SetClient clientW).fst.GetClient = some clientW :=
  ⟨rfl, rfl⟩

/-- Claim C4 amended: SetClient on a local endpoint binds the client
attribute unconditionally (it is neither rejected nor ignored), but the
endpoint is still never treated as remote: IsLocalEndpoint stays true and
IsConnected stays unconditionally true. -/
theorem C4_setClient_local (e : Endpoint) (client : JsonRpcConnection)
    (h : e.IsLocalEndpoint = true) :
    (e.SetClient client).fst.GetClient = some client ∧
    (e.SetClient client).fst.IsLocalEndpoint = true ∧
    (e.SetClient client).fst.IsConnected = true := by
  have h1 : (e.SetClient client).fst
      = (e.Set "client" (Value.client client)).fst := rfl
  have hloc : (e.SetClient client).fst.IsLocalEndpoint = true := by
    rw [h1, IsLocalEndpoint_Set e _ _ (by decide)]
    exact h
  refine ⟨?_, hloc, ?_⟩
  · rw [h1]
    unfold Endpoint.GetClient
    rw [Get_Set_same]
    rfl
  · simp [Endpoint.IsConnected, hloc]

/-- Witness for the amended C4 at the concrete local endpoint. -/
theorem C4_setClient_local_witness :
    (localEndpointW.SetClient clientW).fst.GetClient = some clientW ∧
    (localEndpointW.SetClient clientW).fst.IsLocalEndpoint = true ∧
    (localEndpointW.SetClient clientW).fst.IsConnected = true :=
  C4_setClient_local localEndpointW clientW (by decide)

/-- Claim C5 as frozen fails on the code: a request lacking a parsable
method is silently dropped, with no log write and no raised error, both in
NewMessageHandler and in ProcessRequest on a connected local endpoint. -/
theorem C5_counterexample :
    remoteConnectedW.NewMessageHandler noMethodRequestW = [] ∧
    localEndpointW.ProcessRequest remoteConnectedW noMethodRequestW
      = (localEndpointW, []) :=
  ⟨rfl, rfl⟩

/-- Claim C5 amended: an inbound message that parses as a request but has no
parsable method is silently dropped: NewMessageHandler emits nothing for it,
and ProcessRequest on a local endpoint returns with state unchanged and no
events, so there is no protocol-error logging or rejection. -/
theorem C5_missing_method_drop (e sender : Endpoint)
    (request : RequestMessage) (hm : request.method = none) :
    (IsResponseMessage request = false → e.NewMessageHandler request = []) ∧
    (e.IsLocalEndpoint = true →
      e.ProcessRequest sender request = (e, [])) := by
  constructor
  · intro h
    simp [Endpoint.NewMessageHandler, h, RequestMessage.GetMethod, hm]
  · intro hl
    by_cases hconn : e.IsConnected = true
    · simp [Endpoint.ProcessRequest, hconn, hl, RequestMessage.GetMethod, hm]
    · have hfalse : e.IsConnected = false := by
        cases hx : e.IsConnected
        · rfl
        · exact absurd hx hconn
      simp [Endpoint.ProcessRequest, hfalse]

/-- Witness for the amended C5 at the concrete local endpoint and the
method-less request. -/
theorem C5_missing_method_drop_witness :
    (remoteConnectedW.NewMessageHandler noMethodRequestW = []) ∧
    (localEndpointW.ProcessRequest remoteConnectedW noMethodRequestW
      = (localEndpointW, [])) :=
  ⟨(C5_missing_method_drop remoteConnectedW localEndpointW noMethodRequestW
      (by decide)).1 (by decide),
   (C5_missing_method_drop localEndpointW remoteConnectedW noMethodRequestW
      (by decide)).2 (by decide)⟩

/-- Claim C6: on a remote endpoint with a bound client, ClientClosedHandler
leaves the subscription set empty, clears the client attribute, emits the
Disconnected event, and afterwards IsConnected returns false. -/
theorem C6_clientClosed (e : Endpoint) (hl : e.IsLocalEndpoint = false)
    (hc : (e.GetClient).isSome = true) :
    (∀ t, (e.ClientClosedHandler).fst.HasSubscription t = false) ∧
    (e.ClientClosedHandler).fst.Get "client" = Value.empty ∧
    (e.ClientClosedHandler).fst.IsConnected = false ∧
    Event.disconnected e.GetName ∈ (e.ClientClosedHandler).snd := by
  have hfst : (e.ClientClosedHandler).fst
      = ((e.ClearSubscriptions).fst.Set "client" Value.empty).fst := rfl
  have hsubsattr : (e.ClearSubscriptions).fst.Get "subscriptions"
      = Value.empty := Get_Set_same e "subscriptions" Value.empty
  refine ⟨?_, ?_, ?_, ?_⟩
  · intro t
    rw [hfst]
    unfold Endpoint.HasSubscription Endpoint.GetSubscriptions
    rw [Get_Set_ne _ _ _ _ (by decide), hsubsattr]
    rfl
  · rw [hfst]
    exact Get_Set_same _ "client" Value.empty
  · rw [hfst]
    have hloc : ((e.ClearSubscriptions).fst.Set "client"
        Value.empty).fst.IsLocalEndpoint = false := by
      rw [IsLocalEndpoint_Set _ _ _ (by decide)]
      have hloc2 : (e.ClearSubscriptions).fst.IsLocalEndpoint
          = e.IsLocalEndpoint :=
        IsLocalEndpoint_Set e "subscriptions" Value.empty (by decide)
      rw [hloc2, hl]
    have hclient : ((e.ClearSubscriptions).fst.Set "client"
        Value.empty).fst.GetClient = none := by
      unfold Endpoint.GetClient
      rw [Get_Set_same]
      rfl
    simp only [Endpoint.IsConnected, hloc, Bool.false_eq_true, if_false,
      hclient]
  · have hsnd : (e.ClientClosedHandler).snd
        = Event.logWrite .warning "jsonrpc"
            ("Lost connection to endpoint: identity=" ++ e.GetName)
          :: ((e.ClearSubscriptions).snd
              ++ ((e.ClearSubscriptions).fst.Set "client" Value.empty).snd
              ++ [Event.disconnected e.GetName]) := rfl
    rw [hsnd]
    simp [List.mem_cons, List.mem_append]

/-- Witness for C6 at the concrete remote endpoint with a connected
client. -/
theorem C6_clientClosed_witness :
    (remoteConnectedW.ClientClosedHandler).fst.HasSubscription "A" = false ∧
    (remoteConnectedW.ClientClosedHandler).fst.IsConnected = false :=
  ⟨(C6_clientClosed remoteConnectedW (by decide) (by decide)).1 "A",
   (C6_clientClosed remoteConnectedW (by decide) (by decide)).2.2.1⟩

/-- Claim C8: registering a topic makes HasSubscription for it true, and a
subsequent unregistration makes it false again. -/
theorem C8_register_then_unregister (e : Endpoint) (t : String) :
    (e.RegisterSubscription t).fst.HasSubscription t = true ∧
    ((e.RegisterSubscription t).fst.UnregisterSubscription
        t).fst.HasSubscription t = false := by
  have hreg : ∀ e2 : Endpoint, (e2.RegisterSubscription t).fst.HasSubscription
      t = true := by
    intro e2
    by_cases hc : dictContains (e2.GetSubscriptions.getD []) t = true
    · have hstep : e2.RegisterSubscription t = (e2, []) := by
        rw [RegisterSubscription_eq, if_pos hc]
      rw [hstep, HasSubscription_eq]
      exact hc
    · have hstep : e2.RegisterSubscription t
          = e2.SetSubscriptions (dictSet (e2.GetSubscriptions.getD []) t) := by
        rw [RegisterSubscription_eq, if_neg hc]
      rw [hstep, HasSubscription_eq, GetSubscriptions_SetSubscriptions]
      simp only [Option.getD_some]
      apply (dictContains_iff _ t).mpr
      rw [mem_dictSet]
      exact Or.inl rfl
  have hunreg : ∀ e2 : Endpoint, (e2.UnregisterSubscription t).fst.HasSubscription
      t = false ∨ e2.HasSubscription t = false := by
    intro e2
    cases hs : e2.GetSubscriptions with
    | none =>
      right
      rw [HasSubscription_eq, hs]
      rfl
    | some subs =>
      by_cases hc : dictContains subs t = true
      · left
        rw [UnregisterSubscription_some e2 t subs hs, if_pos hc,
          HasSubscription_eq, GetSubscriptions_SetSubscriptions]
        simp only [Option.getD_some]
        apply dictContains_eq_false
        rw [mem_dictRemove]
        intro hand
        exact hand.2 rfl
      · right
        rw [HasSubscription_eq, hs]
        simp only [Option.getD_some]
        cases hx : dictContains subs t
        · rfl
        · exact absurd hx hc
  refine ⟨hreg e, ?_⟩
  rcases hunreg (e.RegisterSubscription t).fst with h | h
  · exact h
  · exact absurd (hreg e) (by rw [h]; exact Bool.false_ne_true)
